import Mathlib

/-!
Verification of the Transam Triton emulator core (src/triton.cpp) against its
natural-language specification.

The development is a shallow embedding of the emulator's I/O subsystem:
the `IOState` class, the VDU controller (`IOState::vdu_strobe`), the keyboard
handler (`IOState::key_press`), the port dispatchers (`MachineIN`,
`MachineOUT`), the tape transport, the front-panel interrupt injection, and
the start-up initialisation sequence of `main`.

Conventions:
  - C `int` variables that can go negative during the computation
    (`cursor_position`, `vdu_startrow`) are modelled as `Int`; C's truncating
    `%` on `int` is `Int.tmod` (the two coincide with `Int.emod` on the
    non-negative operands arising here).
  - byte-valued registers and latches are modelled as `Nat`.
  - the byte store `main_memory` is modelled as a total function `Int -> Int`
    indexed by the C array subscript expression.
  - the `fstream` tape handle is modelled explicitly: the on-disk bytes, the
    open flag, the read position, and the eof bit (set only when a read
    attempt fails, as for C++ streams).
-/

namespace Triton

/-- Size of the emulator's backing byte store, exactly as declared in
`main` (src/triton.cpp line 396): `unsigned char main_memory[0xffff];`. -/
def main_memory_size : Nat := 0xffff

/-- End (one past the last byte) of the region written when the default 7.2
ROM set is loaded: `load_rom("BASIC72.ROM", 0xe000, "8k", ...)` reads
`0x2000` bytes starting at index `0xe000`. -/
def rom72_load_end : Nat := 0xe000 + 0x2000

/-- Update one cell of the byte store (`mem[addr] = v`). -/
def writeMem (mem : Int → Int) (addr v : Int) : Int → Int :=
  fun a => if a = addr then v else mem a

/-- Base address of the video page (`int vdu_page = 0x1000;`). -/
def vduPage : Int := 0x1000

/-- The I/O state of the emulator: the fields of class `IOState`
(src/triton.cpp lines 49-64).  `tape_status` is an `int` holding a character
code: 32 (`' '`, idle), 114 (`'r'`, reading) or 119 (`'w'`, writing). -/
structure IOState where
  key_buffer : Nat
  led_buffer : Nat
  vdu_buffer : Nat
  port6 : Nat
  oscillator : Bool
  tape_relay : Bool
  cursor_position : Int
  tape_status : Nat
  uart_status : Nat
  vdu_startrow : Int
  deriving Repr

/-- The blanking loop
`for (i = 0; i < n; i++) mem[vdu_page + ((base + i) % 1024)] = 32;`
used by the VDU controller after a scroll (`base` stands for
`64 * vdu_startrow + cursor_position`, with the already-updated values). -/
def blankRun (base : Int) : Nat → (Int → Int) → (Int → Int)
  | 0, mem => mem
  | n + 1, mem => writeMem (blankRun base n mem) (vduPage + Int.tmod (base + n) 1024) 32

/-- The page-clear loop of VDU code 0x0C:
`for (i = 0; i < 1024; i++) mem[vdu_page + i] = 32;`. -/
def blankPage : Nat → (Int → Int) → (Int → Int)
  | 0, mem => mem
  | n + 1, mem => writeMem (blankPage n mem) (vduPage + n) 32

/-- The erase-to-end-of-line loop of VDU code 0x0D:
`while (cursor_position % 64 != 0) { mem[vdu_page + (((64 * vdu_startrow) + cursor_position) % 1024)] = 32; cursor_position++; }`.
The loop advances `cursor_position` to the next multiple of 64, so it runs at
most 63 times; `fuel = 64` therefore never runs out where the source calls it. -/
def eraseToEol (r : Int) : Nat → (Int → Int) → Int → ((Int → Int) × Int)
  | 0, mem, p => (mem, p)
  | fuel + 1, mem, p =>
    if Int.tmod p 64 = 0 then (mem, p)
    else eraseToEol r fuel (writeMem mem (vduPage + Int.tmod (64 * r + p) 1024) 32) (p + 1)

/-- The `switch (input)` body of `IOState::vdu_strobe`
(src/triton.cpp lines 66-184): interpret a VDU control/character code,
mutating the cursor, the start row and the video RAM.  Returns the updated
`IOState` together with the updated memory. -/
def vdu_action (input : Nat) (io : IOState) (mem : Int → Int) : IOState × (Int → Int) :=
  if input = 0x00 then (io, mem)
  else if input = 0x04 then (io, mem)
  else if input = 0x08 then
    let c := io.cursor_position - 1
    ({ io with cursor_position := if c < 0 then c + 1024 else c }, mem)
  else if input = 0x09 then
    let c := io.cursor_position + 1
    ({ io with cursor_position := if c ≥ 1024 then c - 1024 else c }, mem)
  else if input = 0x0a then
    let c := io.cursor_position + 64
    if c ≥ 1024 then
      let c := c - 64
      let r := io.vdu_startrow + 1
      let r := if r > 15 then 0 else r
      ({ io with cursor_position := c, vdu_startrow := r },
       blankRun (64 * r + c) 64 mem)
    else ({ io with cursor_position := c }, mem)
  else if input = 0x0b then
    let c := io.cursor_position - 64
    ({ io with cursor_position := if c < 0 then c + 1024 else c }, mem)
  else if input = 0x0c then
    ({ io with cursor_position := 0, vdu_startrow := 0 }, blankPage 1024 mem)
  else if input = 0x0d then
    if Int.tmod io.cursor_position 64 ≠ 0 then
      let res := eraseToEol io.vdu_startrow 64 mem io.cursor_position
      ({ io with cursor_position := res.2 - 64 }, res.1)
    else (io, mem)
  else if input = 0x18 then (io, mem)
  else if input = 0x19 then (io, mem)
  else if input = 0x1a then
    (io,
     blankRun (64 * io.vdu_startrow +
       (io.cursor_position - Int.tmod io.cursor_position 64)) 64 mem)
  else if input = 0x1b then
    let r := io.vdu_startrow + 1
    let r := if r > 15 then 0 else r
    let c := io.cursor_position - 64
    ({ io with vdu_startrow := r,
               cursor_position := if c < 0 then c + 1024 else c }, mem)
  else if input = 0x1c then
    ({ io with cursor_position := 0 }, mem)
  else if input = 0x1d then
    ({ io with cursor_position := io.cursor_position - Int.tmod io.cursor_position 64 }, mem)
  else
    let mem := writeMem mem
      (vduPage + Int.tmod (64 * io.vdu_startrow + io.cursor_position) 1024) input
    let c := io.cursor_position + 1
    if c ≥ 1024 then
      let c := c - 64
      let r := io.vdu_startrow + 1
      let r := if r > 15 then 0 else r
      ({ io with cursor_position := c, vdu_startrow := r },
       blankRun (64 * r + c) 64 mem)
    else ({ io with cursor_position := c }, mem)

/-- `IOState::vdu_strobe`: `int input = vdu_buffer & 0x7f;` followed by the
switch on `input`. -/
def vdu_strobe (io : IOState) (mem : Int → Int) : IOState × (Int → Int) :=
  vdu_action (io.vdu_buffer &&& 0x7f) io mem

/-! ## Keyboard (IOState::key_press) -/

/-- SFML `sf::Keyboard` key codes used by `IOState::key_press` (values from
the SFML 2.x `Keyboard::Key` enumeration; all keys the handler recognises
have non-negative codes, so they are modelled as `Nat`). -/
def kA : Nat := 0
/-- `sf::Keyboard::Z`. -/
def kZ : Nat := 25
/-- `sf::Keyboard::Num0`. -/
def kNum0 : Nat := 26
/-- `sf::Keyboard::Num1`. -/
def kNum1 : Nat := 27
/-- `sf::Keyboard::Num2`. -/
def kNum2 : Nat := 28
/-- `sf::Keyboard::Num3`. -/
def kNum3 : Nat := 29
/-- `sf::Keyboard::Num4`. -/
def kNum4 : Nat := 30
/-- `sf::Keyboard::Num5`. -/
def kNum5 : Nat := 31
/-- `sf::Keyboard::Num6`. -/
def kNum6 : Nat := 32
/-- `sf::Keyboard::Num7`. -/
def kNum7 : Nat := 33
/-- `sf::Keyboard::Num8`. -/
def kNum8 : Nat := 34
/-- `sf::Keyboard::Num9`. -/
def kNum9 : Nat := 35
/-- `sf::Keyboard::Escape`. -/
def kEscape : Nat := 36
/-- `sf::Keyboard::LBracket`. -/
def kLBracket : Nat := 46
/-- `sf::Keyboard::RBracket`. -/
def kRBracket : Nat := 47
/-- `sf::Keyboard::Semicolon`. -/
def kSemicolon : Nat := 48
/-- `sf::Keyboard::Comma`. -/
def kComma : Nat := 49
/-- `sf::Keyboard::Period`. -/
def kPeriod : Nat := 50
/-- `sf::Keyboard::Quote`. -/
def kQuote : Nat := 51
/-- `sf::Keyboard::Slash`. -/
def kSlash : Nat := 52
/-- `sf::Keyboard::Backslash`. -/
def kBackslash : Nat := 53
/-- `sf::Keyboard::Equal`. -/
def kEqual : Nat := 55
/-- `sf::Keyboard::Hyphen`. -/
def kHyphen : Nat := 56
/-- `sf::Keyboard::Space`. -/
def kSpace : Nat := 57
/-- `sf::Keyboard::Enter`. -/
def kEnter : Nat := 58
/-- `sf::Keyboard::Backspace`. -/
def kBackspace : Nat := 59
/-- `sf::Keyboard::Left`. -/
def kLeft : Nat := 71
/-- `sf::Keyboard::Right`. -/
def kRight : Nat := 72
/-- `sf::Keyboard::Up`. -/
def kUp : Nat := 73
/-- `sf::Keyboard::Down`. -/
def kDown : Nat := 74

/-- The value of the local `temp` at the end of `IOState::key_press`
(src/triton.cpp lines 190-269): the Triton code for a host key event, or
`0xFF` when the event is unrecognised.  Each C `switch`/`if` assignment to
`temp` becomes one rebinding in source order. -/
def key_code (key : Nat) (shifted ctrl : Bool) : Nat :=
  let temp : Nat := 0xFF
  if ctrl = false then
    let temp :=
      if key = kEscape then 0x1B
      else if key = kSpace then 0x20
      else if key = kEnter then 0x0D
      else if key = kBackspace then 0x08
      else if key = kLeft then 0x08
      else if key = kRight then 0x09
      else if key = kDown then 0x0A
      else if key = kUp then 0x0B
      else temp
    if shifted = false then
      let temp := if kA ≤ key ∧ key ≤ kZ then key + 0x61 else temp
      let temp := if kNum0 ≤ key ∧ key ≤ kNum9 then key + 0x16 else temp
      if key = kLBracket then 0x5B
      else if key = kRBracket then 0x5D
      else if key = kSemicolon then 0x3B
      else if key = kComma then 0x2C
      else if key = kPeriod then 0x2E
      else if key = kQuote then 0x27
      else if key = kSlash then 0x2F
      else if key = kBackslash then 0x5C
      else if key = kEqual then 0x3D
      else if key = kHyphen then 0x2D
      else temp
    else
      let temp := if kA ≤ key ∧ key ≤ kZ then key + 0x41 else temp
      if key = kNum0 then 0x29
      else if key = kNum1 then 0x21
      else if key = kNum2 then 0x22
      else if key = kNum3 then 0x23
      else if key = kNum4 then 0x24
      else if key = kNum5 then 0x25
      else if key = kNum6 then 0x5E
      else if key = kNum7 then 0x26
      else if key = kNum8 then 0x2A
      else if key = kNum9 then 0x28
      else if key = kLBracket then 0x7B
      else if key = kRBracket then 0x7D
      else if key = kSemicolon then 0x3A
      else if key = kComma then 0x3C
      else if key = kPeriod then 0x3E
      else if key = kQuote then 0x40
      else if key = kSlash then 0x3F
      else if key = kBackslash then 0x7C
      else if key = kEqual then 0x2B
      else if key = kHyphen then 0x5F
      else temp
  else
    let temp := if kA ≤ key ∧ key ≤ kZ then key + 0x01 else temp
    if key = kQuote then 0x00
    else if key = kBackslash then 0x1C
    else if key = kLBracket then 0x1B
    else if key = kRBracket then 0x1D
    else temp

/-- `IOState::key_press` (src/triton.cpp lines 186-275).  `pressed` is
`event == sf::Event::KeyPressed`.  On a recognised event the whole
`key_buffer` is overwritten with the mapped code; the strobe bit 7 is OR-ed
in only on a press. -/
def key_press (io : IOState) (pressed : Bool) (key : Nat) (shifted ctrl : Bool) : IOState :=
  let temp := key_code key shifted ctrl
  if temp ≠ 0xFF then
    if pressed then { io with key_buffer := temp ||| 0x80 }
    else { io with key_buffer := temp }
  else io

/-! ## Tape transport and port dispatch -/

/-- Model of the global `fstream tape` handle together with the on-disk
`TAPE` file.  `eofbit` mirrors the C++ stream eof flag: it is set only when
a `get` fails, not when the last byte is read, and `open` clears it. -/
structure Tape where
  file : List Nat
  handleOpen : Bool
  readpos : Nat
  eofbit : Bool
  deriving Repr

/-- The machine state visible to `MachineIN` / `MachineOUT`: the CPU
accumulator `state->a` (an 8-bit register), the `IOState`, the byte store
and the tape handle. -/
structure Machine where
  a : Nat
  io : IOState
  tape : Tape
  mem : Int → Int

/-- `MachineIN` (src/triton.cpp lines 277-306): CPU `IN` from a port.
`junk` models the value of the uninitialised local `char c` in the port-4
handler, which is copied to A when `tape.get(c)` fails (the C++ `get` leaves
`c` unmodified on failure). -/
def MachineIN (m : Machine) (port : Nat) (junk : Nat) : Machine :=
  if port = 0 then { m with a := m.io.key_buffer % 256 }
  else if port = 1 then { m with a := m.io.uart_status % 256 }
  else if port = 4 then
    if m.io.tape_relay then
      let io := if m.io.tape_status = 32 then { m.io with tape_status := 114 } else m.io
      let t := if m.io.tape_status = 32 then
          { m.tape with handleOpen := true, readpos := 0, eofbit := false }
        else m.tape
      if io.tape_status = 114 ∧ t.eofbit = false then
        if t.readpos < t.file.length then
          { m with io := io,
                   tape := { t with readpos := t.readpos + 1 },
                   a := (t.file.getD t.readpos 0) % 256 }
        else
          { m with io := io, tape := { t with eofbit := true }, a := junk % 256 }
      else { m with io := io, tape := t, a := 0 }
    else m
  else m

/-- `MachineOUT` (src/triton.cpp lines 308-359): CPU `OUT` to a port. -/
def MachineOUT (m : Machine) (port : Nat) : Machine :=
  if port = 2 then
    if m.io.tape_relay then
      let io := if m.io.tape_status = 32 then { m.io with tape_status := 119 } else m.io
      let t := if m.io.tape_status = 32 then
          { m.tape with handleOpen := true, eofbit := false }
        else m.tape
      if io.tape_status = 119 then
        { m with io := io, tape := { t with file := t.file ++ [m.a % 256] } }
      else { m with io := io, tape := t }
    else m
  else if port = 3 then { m with io := { m.io with led_buffer := m.a } }
  else if port = 5 then
    if m.io.vdu_buffer ≠ m.a then
      let io := { m.io with vdu_buffer := m.a }
      if m.a ≥ 0x80 then
        let res := vdu_strobe io m.mem
        { m with io := res.1, mem := res.2 }
      else { m with io := io }
    else m
  else if port = 6 then { m with io := { m.io with port6 := m.a >>> 6 } }
  else if port = 7 then
    let io := { m.io with oscillator := m.a &&& 0x40 ≠ 0 }
    let io := if m.a &&& 0x80 ≠ 0 ∧ io.tape_relay = false
      then { io with tape_relay := true } else io
    if m.a &&& 0x80 = 0 ∧ io.tape_relay = true then
      let io2 := if io.tape_status = 119 ∨ io.tape_status = 114 then
          { io with tape_status := 32 } else io
      let t := if io.tape_status = 119 ∨ io.tape_status = 114 then
          { m.tape with handleOpen := false } else m.tape
      { m with io := { io2 with tape_relay := false }, tape := t }
    else { m with io := io }
  else m

/-- One intercepted I/O instruction of the machine loop: `IN port` (with the
junk byte for the uninitialised tape local) or `OUT port` executed with a
given accumulator value. -/
inductive IOOp where
  | inp : Nat → Nat → IOOp
  | outp : Nat → Nat → IOOp
  deriving Repr

/-- Execute one I/O instruction. -/
def doOp (m : Machine) : IOOp → Machine
  | .inp port junk => MachineIN m port junk
  | .outp port a => MachineOUT { m with a := a } port

/-- Execute a sequence of I/O instructions. -/
def runOps (m : Machine) (ops : List IOOp) : Machine := ops.foldl doOp m

/-- A sequence of CPU writes to port 5 (each `OUT 5` with the given
accumulator value), the trigger path of the VDU state machine. -/
def port5_run (m : Machine) (vs : List Nat) : Machine :=
  vs.foldl (fun m v => MachineOUT { m with a := v } 5) m

/-! ## CPU state, front-panel interrupts, start-up -/

/-- Modelled from the spec: the `State8080` CPU record of `8080.hpp`, which
is not part of this repository's sources; only the fields `triton.cpp` uses
appear.  Per the spec, A is an 8-bit register, PC and SP are 16-bit
("Stack operations wrap SP modulo 65 536"), and `int_enable` is the INTE
flip-flop. -/
structure State8080 where
  a : Nat
  pc : Nat
  sp : Nat
  int_enable : Bool
  deriving Repr

/-- Front-panel interrupt injection, the common body of the F2 and F3
handlers in `main` (src/triton.cpp lines 642-661):
`if (state.int_enable) { state.int_enable = false; main_memory[state.sp - 2] = state.pc & 0xff; main_memory[state.sp - 1] = state.pc >> 8; state.sp -= 2; state.pc = vector; }`.
SP arithmetic is taken modulo 65 536 per the spec's 16-bit stack pointer
(the width of `state.sp` lives in the missing `8080.hpp`). -/
def interrupt_inject (cpu : State8080) (mem : Int → Int) (vector : Nat) :
    State8080 × (Int → Int) :=
  if cpu.int_enable then
    let mem := writeMem mem ((cpu.sp + 65536 - 2) % 65536 : Nat) (cpu.pc &&& 0xff : Nat)
    let mem := writeMem mem ((cpu.sp + 65536 - 1) % 65536 : Nat) (cpu.pc >>> 8 : Nat)
    ({ cpu with int_enable := false,
                sp := (cpu.sp + 65536 - 2) % 65536,
                pc := vector }, mem)
  else (cpu, mem)

/-- The F2 ("Clear Screen", PB 2) button: RST1, vector 0x0008. -/
def f2_press (cpu : State8080) (mem : Int → Int) : State8080 × (Int → Int) :=
  interrupt_inject cpu mem 0x0008

/-- The F3 ("Initialise", PB 3) button: RST2, vector 0x0010. -/
def f3_press (cpu : State8080) (mem : Int → Int) : State8080 × (Int → Int) :=
  interrupt_inject cpu mem 0x0010

/-- Every field assignment `main` performs on the I/O and CPU state before
the first frame (src/triton.cpp lines 440-442 and 557-559):
`io.uart_status = 0x11; io.tape_status = ' '; io.vdu_startrow = 0;`
and `state.a = 0; state.pc = 0x00;`.  All other fields of the
default-constructed `IOState io` and `State8080 state` flow through
unchanged (in C++ they hold indeterminate values at this point). -/
def startup_init (io : IOState) (cpu : State8080) : IOState × State8080 :=
  ({ io with uart_status := 0x11, tape_status := 32, vdu_startrow := 0 },
   { cpu with a := 0, pc := 0x00 })

/-! ## Helper lemmas about the VDU loops -/

/-- When the cursor is already at a column-0 position the 0x0D loop body
never runs. -/
lemma eraseToEol_stop (r : Int) (fuel : Nat) (mem : Int → Int) (p : Int)
    (h : Int.tmod p 64 = 0) : eraseToEol r fuel mem p = (mem, p) := by
  cases fuel <;> simp only [eraseToEol, if_pos h]

/-- Final cursor value of the 0x0D loop: the next multiple of 64. -/
lemma eraseToEol_snd (r : Int) (fuel : Nat) (mem : Int → Int) (p : Int)
    (hp : 0 ≤ p) (hne : p % 64 ≠ 0) (hle : 64 - p % 64 ≤ (fuel : Int)) :
    (eraseToEol r fuel mem p).2 = p + (64 - p % 64) := by
  induction fuel generalizing mem p with
  | zero => exfalso; omega
  | succ n ih =>
    have htm : Int.tmod p 64 = p % 64 := Int.tmod_eq_emod hp (by norm_num)
    rw [eraseToEol, if_neg (by rw [htm]; exact hne)]
    by_cases h0 : (p + 1) % 64 = 0
    · rw [eraseToEol_stop r n _ _ (by rw [Int.tmod_eq_emod (by omega) (by norm_num)]; exact h0)]
      simp only
      omega
    · rw [ih _ (p + 1) (by omega) h0 (by omega)]
      omega

/-- The 0x0D loop only writes the value 32, so cells already holding 32
keep it. -/
lemma eraseToEol_keep32 (r : Int) (fuel : Nat) (mem : Int → Int) (p a : Int)
    (h : mem a = 32) : (eraseToEol r fuel mem p).1 a = 32 := by
  induction fuel generalizing mem p with
  | zero => exact h
  | succ n ih =>
    rw [eraseToEol]
    split
    · exact h
    · exact ih _ _ (by unfold writeMem; split <;> simp [h])

/-- Every cell from the cursor to the end of the cursor's physical line is
blanked by the 0x0D loop. -/
lemma eraseToEol_mem_in (r : Int) (hr : 0 ≤ r) (fuel : Nat) (mem : Int → Int)
    (p q : Int) (hp : 0 ≤ p) (hne : p % 64 ≠ 0) (hle : 64 - p % 64 ≤ (fuel : Int))
    (hq1 : p ≤ q) (hq2 : q < p + (64 - p % 64)) :
    (eraseToEol r fuel mem p).1 (vduPage + (64 * r + q) % 1024) = 32 := by
  induction fuel generalizing mem p with
  | zero => exfalso; omega
  | succ n ih =>
    have htm : Int.tmod p 64 = p % 64 := Int.tmod_eq_emod hp (by norm_num)
    have htm2 : Int.tmod (64 * r + p) 1024 = (64 * r + p) % 1024 :=
      Int.tmod_eq_emod (by omega) (by norm_num)
    rw [eraseToEol, if_neg (by rw [htm]; exact hne)]
    by_cases hqp : q = p
    · subst hqp
      exact eraseToEol_keep32 _ _ _ _ _ (by rw [htm2]; unfold writeMem; simp)
    · by_cases h0 : (p + 1) % 64 = 0
      · exfalso; omega
      · exact ih _ (p + 1) (by omega) h0 (by omega) (by omega) (by omega)

/-- Cells outside the cursor-to-end-of-line range are untouched by the
0x0D loop. -/
lemma eraseToEol_mem_out (r : Int) (hr : 0 ≤ r) (fuel : Nat) (mem : Int → Int)
    (p a : Int) (hp : 0 ≤ p)
    (h : ∀ q : Int, p ≤ q → q < p + (64 - p % 64) → a ≠ vduPage + (64 * r + q) % 1024) :
    (eraseToEol r fuel mem p).1 a = mem a := by
  induction fuel generalizing mem p with
  | zero => rfl
  | succ n ih =>
    rw [eraseToEol]
    by_cases hstop : Int.tmod p 64 = 0
    · rw [if_pos hstop]
    · rw [if_neg hstop]
      have htm : Int.tmod p 64 = p % 64 := Int.tmod_eq_emod hp (by norm_num)
      have hne : p % 64 ≠ 0 := by rw [htm] at hstop; exact hstop
      have htm2 : Int.tmod (64 * r + p) 1024 = (64 * r + p) % 1024 :=
        Int.tmod_eq_emod (by omega) (by norm_num)
      have hwr : writeMem mem (vduPage + Int.tmod (64 * r + p) 1024) 32 a = mem a := by
        unfold writeMem
        rw [if_neg (by rw [htm2]; exact h p (by omega) (by omega))]
      by_cases h0 : (p + 1) % 64 = 0
      · rw [eraseToEol_stop r n _ _
          (by rw [Int.tmod_eq_emod (by omega) (by norm_num)]; exact h0)]
        exact hwr
      · rw [ih _ (p + 1) (by omega) (by intro q hq1 hq2; exact h q (by omega) (by omega))]
        exact hwr

/-- The scroll blanking loop only writes 32, so cells holding 32 keep it. -/
lemma blankRun_keep32 (base : Int) (n : Nat) (mem : Int → Int) (a : Int)
    (h : mem a = 32) : blankRun base n mem a = 32 := by
  induction n with
  | zero => exact h
  | succ m ih =>
    unfold blankRun writeMem
    split
    · rfl
    · exact ih

/-- Every one of the `n` cells of the scroll blanking loop is set to 32. -/
lemma blankRun_in (base : Int) (hb : 0 ≤ base) (n k : Nat) (hk : k < n)
    (mem : Int → Int) : blankRun base n mem (vduPage + (base + k) % 1024) = 32 := by
  induction n with
  | zero => omega
  | succ m ih =>
    have htm : Int.tmod (base + (m : Int)) 1024 = (base + (m : Int)) % 1024 :=
      Int.tmod_eq_emod (by omega) (by norm_num)
    by_cases hkm : k = m
    · subst hkm
      unfold blankRun writeMem
      rw [htm]
      simp
    · have hlt : k < m := by omega
      unfold blankRun writeMem
      split
      · rfl
      · exact ih hlt

/-- Cells outside the blanked range are untouched by the scroll loop. -/
lemma blankRun_out (base : Int) (hb : 0 ≤ base) (n : Nat) (a : Int)
    (h : ∀ k : Nat, k < n → a ≠ vduPage + (base + k) % 1024)
    (mem : Int → Int) : blankRun base n mem a = mem a := by
  induction n with
  | zero => rfl
  | succ m ih =>
    have htm : Int.tmod (base + (m : Int)) 1024 = (base + (m : Int)) % 1024 :=
      Int.tmod_eq_emod (by omega) (by norm_num)
    unfold blankRun writeMem
    rw [if_neg (by rw [htm]; exact h m (by omega))]
    exact ih (fun k hk => h k (by omega))

/-! ## VDU bounds invariant -/

/-- The spec's VDU invariant: the logical cursor stays in `[0, 1024)` and
the scroll start row stays in `[0, 16)`. -/
def VduBounds (io : IOState) : Prop :=
  0 ≤ io.cursor_position ∧ io.cursor_position < 1024 ∧
  0 ≤ io.vdu_startrow ∧ io.vdu_startrow < 16

instance (io : IOState) : Decidable (VduBounds io) := by
  unfold VduBounds; infer_instance

/-- Every branch of the VDU switch re-establishes the VDU bounds. -/
lemma vdu_action_bounds (input : Nat) (io : IOState) (mem : Int → Int)
    (h : VduBounds io) : VduBounds (vdu_action input io mem).1 := by
  obtain ⟨h1, h2, h3, h4⟩ := h
  have e1 : Int.tmod io.cursor_position 64 = io.cursor_position % 64 :=
    Int.tmod_eq_emod h1 (by norm_num)
  unfold vdu_action
  by_cases c00 : input = 0x00
  · rw [if_pos c00]; exact ⟨h1, h2, h3, h4⟩
  rw [if_neg c00]
  by_cases c04 : input = 0x04
  · rw [if_pos c04]; exact ⟨h1, h2, h3, h4⟩
  rw [if_neg c04]
  by_cases c08 : input = 0x08
  · rw [if_pos c08]
    simp only [VduBounds]
    split_ifs <;> omega
  rw [if_neg c08]
  by_cases c09 : input = 0x09
  · rw [if_pos c09]
    simp only [VduBounds]
    split_ifs <;> omega
  rw [if_neg c09]
  by_cases c0a : input = 0x0a
  · rw [if_pos c0a]
    simp only [VduBounds]
    split_ifs <;> dsimp only <;> omega
  rw [if_neg c0a]
  by_cases c0b : input = 0x0b
  · rw [if_pos c0b]
    simp only [VduBounds]
    split_ifs <;> omega
  rw [if_neg c0b]
  by_cases c0c : input = 0x0c
  · rw [if_pos c0c]
    simp only [VduBounds]
    omega
  rw [if_neg c0c]
  by_cases c0d : input = 0x0d
  · rw [if_pos c0d]
    simp only [VduBounds]
    split_ifs with hd
    · rw [eraseToEol_snd io.vdu_startrow 64 mem io.cursor_position h1
        (by rw [e1] at hd; exact hd) (by omega)]
      dsimp only
      omega
    · exact ⟨h1, h2, h3, h4⟩
  rw [if_neg c0d]
  by_cases c18 : input = 0x18
  · rw [if_pos c18]; exact ⟨h1, h2, h3, h4⟩
  rw [if_neg c18]
  by_cases c19 : input = 0x19
  · rw [if_pos c19]; exact ⟨h1, h2, h3, h4⟩
  rw [if_neg c19]
  by_cases c1a : input = 0x1a
  · rw [if_pos c1a]; exact ⟨h1, h2, h3, h4⟩
  rw [if_neg c1a]
  by_cases c1b : input = 0x1b
  · rw [if_pos c1b]
    simp only [VduBounds]
    split_ifs <;> omega
  rw [if_neg c1b]
  by_cases c1c : input = 0x1c
  · rw [if_pos c1c]
    simp only [VduBounds]
    omega
  rw [if_neg c1c]
  by_cases c1d : input = 0x1d
  · rw [if_pos c1d]
    simp only [VduBounds]
    rw [e1]
    omega
  rw [if_neg c1d]
  simp only [VduBounds]
  split_ifs <;> dsimp only <;> omega

/-- `IOState::vdu_strobe` preserves the VDU bounds for any port-5 buffer
value. -/
lemma vdu_strobe_bounds (io : IOState) (mem : Int → Int) (h : VduBounds io) :
    VduBounds (vdu_strobe io mem).1 :=
  vdu_action_bounds (io.vdu_buffer &&& 0x7f) io mem h

/-- A port-5 `OUT` (one step of `port5_run`) preserves the VDU bounds. -/
lemma out5_bounds (m : Machine) (v : Nat) (h : VduBounds m.io) :
    VduBounds (MachineOUT { m with a := v } 5).io := by
  unfold MachineOUT
  rw [if_neg (by decide : ¬(5 : Nat) = 2), if_neg (by decide : ¬(5 : Nat) = 3),
    if_pos (rfl : (5 : Nat) = 5)]
  dsimp only
  split_ifs
  · exact vdu_strobe_bounds _ m.mem h
  · exact h
  · exact h

/-- Any sequence of port-5 writes preserves the VDU bounds. -/
lemma port5_run_bounds (m : Machine) (vs : List Nat) (h : VduBounds m.io) :
    VduBounds (port5_run m vs).io := by
  induction vs generalizing m with
  | nil => exact h
  | cons v t ih => exact ih _ (out5_bounds m v h)

/-! ## Concrete states used to instantiate theorems -/

/-- A concrete `IOState` satisfying the VDU bounds and the tape invariant. -/
def io0 : IOState :=
  { key_buffer := 0, led_buffer := 0, vdu_buffer := 0, port6 := 0,
    oscillator := false, tape_relay := false, cursor_position := 0,
    tape_status := 32, uart_status := 0x11, vdu_startrow := 0 }

/-- A closed tape handle over an empty `TAPE` file. -/
def tape0 : Tape := { file := [], handleOpen := false, readpos := 0, eofbit := false }

/-- A concrete machine with zeroed memory. -/
def m0 : Machine := { a := 0, io := io0, tape := tape0, mem := fun _ => 0 }

/-! ## Claim C1 -/

/-- C1: the claim says the backing array has exactly 65 536 entries so that
every address up to and including 0xFFFF is in bounds.  The declaration
`unsigned char main_memory[0xffff];` gives only 65 535 entries: index
0xFFFF is out of bounds, and the default 7.2 ROM load itself writes one
byte past the end of the array. -/
theorem C1_main_memory_one_short :
    main_memory_size = 65535 ∧
    ¬ 0xFFFF < main_memory_size ∧
    0xFFFE < main_memory_size ∧
    main_memory_size < rom72_load_end := by
  decide

/-! ## Claim C2 -/

/-- One possible content of the default-constructed `IOState` before `main`
initialises anything (the C++ members are indeterminate at that point). -/
def preIOa : IOState :=
  { key_buffer := 0, led_buffer := 0, vdu_buffer := 0, port6 := 0,
    oscillator := false, tape_relay := false, cursor_position := 7,
    tape_status := 0, uart_status := 0, vdu_startrow := 5 }

/-- Another possible content of the default-constructed `IOState`,
differing from `preIOa` only in `cursor_position`. -/
def preIOb : IOState :=
  { key_buffer := 0, led_buffer := 0, vdu_buffer := 0, port6 := 0,
    oscillator := false, tape_relay := false, cursor_position := 9,
    tape_status := 0, uart_status := 0, vdu_startrow := 5 }

/-- A possible content of the default-constructed `State8080`. -/
def preCpu : State8080 := { a := 0, pc := 0, sp := 0, int_enable := false }

/-- C2: the claim says every CPU and I/O state component is reset to a
single deterministic value at start-up.  `main` assigns only `uart_status`,
`tape_status`, `vdu_startrow`, `a` and `pc`; `cursor_position` (like
`key_buffer`, `led_buffer`, `vdu_buffer`, `port6`, `oscillator` and
`tape_relay`) flows through from the indeterminate pre-state, so two runs
can start from different states. -/
theorem C2_startup_not_deterministic :
    (startup_init preIOa preCpu).1.uart_status = 0x11 ∧
    (startup_init preIOa preCpu).1.tape_status = 32 ∧
    (startup_init preIOa preCpu).1.vdu_startrow = 0 ∧
    (startup_init preIOa preCpu).2.pc = 0 ∧
    (startup_init preIOa preCpu).2.a = 0 ∧
    (startup_init preIOa preCpu).1.cursor_position = 7 ∧
    (startup_init preIOb preCpu).1.cursor_position = 9 ∧
    (startup_init preIOa preCpu).1.cursor_position ≠
      (startup_init preIOb preCpu).1.cursor_position := by
  decide

/-! ## Claim C3 -/

/-- C3: in every state reachable by any sequence of port-5 writes (hence by
any sequence of triggered VDU actions), `cursor_position` stays in
`[0, 1024)` and `vdu_startrow` stays in `[0, 16)`; moreover every branch of
the VDU switch re-establishes both bounds from any state satisfying them. -/
theorem C3_vdu_bounds_invariant :
    (∀ (m : Machine) (vs : List Nat), VduBounds m.io →
      VduBounds (port5_run m vs).io) ∧
    (∀ (input : Nat) (io : IOState) (mem : Int → Int), VduBounds io →
      VduBounds (vdu_action input io mem).1) :=
  ⟨port5_run_bounds, vdu_action_bounds⟩

/-- Witness for C3 at a concrete machine and write sequence. -/
theorem C3_vdu_bounds_invariant_witness :
    VduBounds m0.io ∧ VduBounds (port5_run m0 [0x80, 0x8A, 0x8D, 0x9B]).io :=
  ⟨by decide, C3_vdu_bounds_invariant.1 m0 [0x80, 0x8A, 0x8D, 0x9B] (by decide)⟩

/-! ## Claim C4 -/

/-- The S3 scenario start state: cursor at 1000, start row 0. -/
def io4 : IOState := { io0 with cursor_position := 1000 }

/-- The S3 scenario machine. -/
def m4 : Machine := { m0 with io := io4 }

/-- C4, counterexample: running the S3 scenario (port-5 writes 0x80 then
0x8A from cursor 1000, start row 0, zeroed memory) does reach cursor 1000
and start row 1, but the byte at the claim's first blanked address
`0x1000 + ((64*1 + 936 + 0) % 1024)` is still 0, not 0x20: the code blanks
the 64 cells based at the cursor (base 1000), not at 936. -/
theorem C4_scroll_fill_counterexample :
    (port5_run m4 [0x80, 0x8A]).io.cursor_position = 1000 ∧
    (port5_run m4 [0x80, 0x8A]).io.vdu_startrow = 1 ∧
    (port5_run m4 [0x80, 0x8A]).mem (0x1000 + ((64 * 1 + 936 + 0) % 1024)) = 0 ∧
    (port5_run m4 [0x80, 0x8A]).mem (0x1000 + ((64 * 1 + 936 + 0) % 1024)) ≠ 32 := by
  decide

/-- C4, amended: a triggered VDU action 0x0A from the last logical row
(cursor_position + 64 ≥ 1024) keeps the cursor, advances `vdu_startrow` by
1 mod 16, and writes 0x20 into the 64 cells at physical addresses
`0x1000 + ((64*startrow' + cursor + k) mod 1024)`, k < 64 (based at the
cursor, not at the claim's 936); in particular the S3 scenario yields
cursor 1000, start row 1, and 0x20 at `0x1000 + ((64*1 + 1000 + k) mod
1024)` for every k < 64. -/
theorem C4_scroll_fill_amended :
    (∀ (io : IOState) (mem : Int → Int), VduBounds io →
      io.vdu_buffer &&& 0x7f = 0x0A →
      1024 ≤ io.cursor_position + 64 →
      (vdu_strobe io mem).1.cursor_position = io.cursor_position ∧
      (vdu_strobe io mem).1.vdu_startrow = (io.vdu_startrow + 1) % 16 ∧
      (∀ k : Nat, k < 64 →
        (vdu_strobe io mem).2
          (vduPage + ((64 * ((io.vdu_startrow + 1) % 16) + io.cursor_position + (k : Int)) % 1024))
          = 32)) ∧
    ((port5_run m4 [0x80, 0x8A]).io.cursor_position = 1000 ∧
     (port5_run m4 [0x80, 0x8A]).io.vdu_startrow = 1 ∧
     (∀ k : Nat, k < 64 →
       (port5_run m4 [0x80, 0x8A]).mem (0x1000 + ((64 * 1 + 1000 + (k : Int)) % 1024)) = 32)) := by
  constructor
  · intro io mem hB hbuf hcur
    obtain ⟨h1, h2, h3, h4⟩ := hB
    unfold vdu_strobe
    rw [hbuf]
    unfold vdu_action
    rw [if_neg (by decide : ¬(0x0a : Nat) = 0x00), if_neg (by decide : ¬(0x0a : Nat) = 0x04),
      if_neg (by decide : ¬(0x0a : Nat) = 0x08), if_neg (by decide : ¬(0x0a : Nat) = 0x09),
      if_pos (rfl : (0x0a : Nat) = 0x0a)]
    dsimp only
    rw [if_pos (by omega : io.cursor_position + 64 ≥ 1024)]
    have hc64 : io.cursor_position + 64 - 64 = io.cursor_position := by ring
    have hrif : (if io.vdu_startrow + 1 > 15 then (0 : Int) else io.vdu_startrow + 1)
        = (io.vdu_startrow + 1) % 16 := by split_ifs <;> omega
    dsimp only
    rw [hc64, hrif]
    refine ⟨rfl, rfl, ?_⟩
    intro k hk
    exact blankRun_in _ (by omega) 64 k hk mem
  · refine ⟨by decide, by decide, ?_⟩
    decide

/-- Witness for the general part of C4 at the S3 state with the VDU buffer
already latched to 0x8A. -/
def io4w : IOState := { io0 with cursor_position := 1000, vdu_buffer := 0x8A }

/-- Witness for C4: the amended theorem applied at `io4w` over zeroed
memory. -/
theorem C4_scroll_fill_amended_witness :
    (VduBounds io4w ∧ io4w.vdu_buffer &&& 0x7f = 0x0A ∧ 1024 ≤ io4w.cursor_position + 64) ∧
    ((vdu_strobe io4w m0.mem).1.cursor_position = io4w.cursor_position ∧
     (vdu_strobe io4w m0.mem).1.vdu_startrow = (io4w.vdu_startrow + 1) % 16 ∧
     (∀ k : Nat, k < 64 →
       (vdu_strobe io4w m0.mem).2
         (vduPage + ((64 * ((io4w.vdu_startrow + 1) % 16) + io4w.cursor_position + (k : Int)) % 1024))
         = 32)) :=
  ⟨⟨by decide, by decide, by decide⟩,
   C4_scroll_fill_amended.1 io4w m0.mem (by decide) (by decide) (by decide)⟩

/-! ## Claim C5 -/

/-- C5, counterexample: a triggered 0x0D with the cursor already at column
0 (cursor 0, start row 0, zeroed memory).  The claim says the entire row is
blanked to 0x20; the code takes the `cursor_position % 64 == 0` branch and
writes nothing, so the first cell of the row still holds 0. -/
theorem C5_cr_counterexample :
    (port5_run m0 [0x8D]).io.cursor_position = 0 ∧
    (port5_run m0 [0x8D]).mem 0x1000 = 0 ∧
    (port5_run m0 [0x8D]).mem 0x1000 ≠ 32 := by
  decide

/-- C5, amended: a triggered VDU action 0x0D with the cursor at column
`c = cursor_position % 64 ≠ 0` writes 0x20 into exactly the cells from the
cursor's physical location to the end of the cursor's physical line
(addresses `0x1000 + ((64*startrow + q) mod 1024)` for q from the cursor up
to the next multiple of 64), leaves other cells untouched, and puts the
cursor at column 0 of the same row; when the cursor is already at column 0
the action is a no-op (nothing is blanked and the state is unchanged). -/
theorem C5_cr_amended :
    ∀ (io : IOState) (mem : Int → Int), VduBounds io →
      io.vdu_buffer &&& 0x7f = 0x0D →
      (io.cursor_position % 64 = 0 → vdu_strobe io mem = (io, mem)) ∧
      (io.cursor_position % 64 ≠ 0 →
        (vdu_strobe io mem).1.cursor_position
            = io.cursor_position - io.cursor_position % 64 ∧
        (vdu_strobe io mem).1.vdu_startrow = io.vdu_startrow ∧
        (∀ q : Int, io.cursor_position ≤ q →
          q < io.cursor_position + (64 - io.cursor_position % 64) →
          (vdu_strobe io mem).2 (vduPage + ((64 * io.vdu_startrow + q) % 1024)) = 32) ∧
        (∀ addr : Int,
          (∀ q : Int, io.cursor_position ≤ q →
            q < io.cursor_position + (64 - io.cursor_position % 64) →
            addr ≠ vduPage + ((64 * io.vdu_startrow + q) % 1024)) →
          (vdu_strobe io mem).2 addr = mem addr)) := by
  intro io mem hB hbuf
  obtain ⟨h1, h2, h3, h4⟩ := hB
  have e1 : Int.tmod io.cursor_position 64 = io.cursor_position % 64 :=
    Int.tmod_eq_emod h1 (by norm_num)
  unfold vdu_strobe
  rw [hbuf]
  unfold vdu_action
  rw [if_neg (by decide : ¬(0x0d : Nat) = 0x00), if_neg (by decide : ¬(0x0d : Nat) = 0x04),
    if_neg (by decide : ¬(0x0d : Nat) = 0x08), if_neg (by decide : ¬(0x0d : Nat) = 0x09),
    if_neg (by decide : ¬(0x0d : Nat) = 0x0a), if_neg (by decide : ¬(0x0d : Nat) = 0x0b),
    if_neg (by decide : ¬(0x0d : Nat) = 0x0c), if_pos (rfl : (0x0d : Nat) = 0x0d)]
  constructor
  · intro hz
    rw [if_neg (not_not_intro (by rw [e1]; exact hz))]
  · intro hnz
    rw [if_pos (by rw [e1]; exact hnz)]
    dsimp only
    refine ⟨?_, rfl, ?_, ?_⟩
    · rw [eraseToEol_snd io.vdu_startrow 64 mem io.cursor_position h1 hnz (by omega)]
      omega
    · intro q hq1 hq2
      exact eraseToEol_mem_in io.vdu_startrow h3 64 mem io.cursor_position q h1 hnz
        (by omega) hq1 hq2
    · intro addr ha
      exact eraseToEol_mem_out io.vdu_startrow h3 64 mem io.cursor_position addr h1 ha

/-- The C5 witness state: cursor at column 6 of the second row, VDU buffer
latched to 0x8D. -/
def io5w : IOState := { io0 with cursor_position := 70, vdu_buffer := 0x8D }

/-- Witness for C5: the amended theorem applied at `io5w` over zeroed
memory. -/
theorem C5_cr_amended_witness :
    (VduBounds io5w ∧ io5w.vdu_buffer &&& 0x7f = 0x0D ∧ io5w.cursor_position % 64 ≠ 0) ∧
    (vdu_strobe io5w m0.mem).1.cursor_position
      = io5w.cursor_position - io5w.cursor_position % 64 :=
  ⟨⟨by decide, by decide, by decide⟩,
   ((C5_cr_amended io5w m0.mem (by decide) (by decide)).2 (by decide)).1⟩

/-! ## Keyboard lemmas (claims C6 and C10) -/

/-- Unmodified letter keys map to 0x61..0x7A. -/
lemma key_code_letter (key : Nat) (h : key ≤ 25) :
    key_code key false false = key + 0x61 := by
  interval_cases key <;> decide

/-- `sf::Keyboard::KeyCount`: one past the largest SFML key code, the
domain of `event.key.code` for genuine key events. -/
def kKeyCount : Nat := 101

/-- `key_code` either rejects the event (0xFF) or produces a 7-bit code,
for every key in the SFML enumeration. -/
lemma key_code_cases (key : Nat) (shifted ctrl : Bool) (hdom : key < kKeyCount) :
    key_code key shifted ctrl = 0xFF ∨ key_code key shifted ctrl < 0x80 := by
  unfold kKeyCount at hdom
  rcases shifted <;> rcases ctrl
  · exact (by decide :
      ∀ k, k < 101 → (key_code k false false = 0xFF ∨ key_code k false false < 0x80))
      key hdom
  · exact (by decide :
      ∀ k, k < 101 → (key_code k false true = 0xFF ∨ key_code k false true < 0x80))
      key hdom
  · exact (by decide :
      ∀ k, k < 101 → (key_code k true false = 0xFF ∨ key_code k true false < 0x80))
      key hdom
  · exact (by decide :
      ∀ k, k < 101 → (key_code k true true = 0xFF ∨ key_code k true true < 0x80))
      key hdom

/-- Every recognised key code is below 0x80 (so bit 7, the strobe, is
clear in the mapped code itself). -/
lemma key_code_lt (key : Nat) (shifted ctrl : Bool) (hdom : key < kKeyCount)
    (h : key_code key shifted ctrl ≠ 0xFF) :
    key_code key shifted ctrl < 0x80 :=
  (key_code_cases key shifted ctrl hdom).resolve_left h

/-- Setting bit 7 by OR on a 7-bit value is addition of 0x80. -/
lemma lor_bit7 (c : Nat) (h : c < 0x80) : c ||| 0x80 = c + 0x80 := by
  interval_cases c <;> decide

/-- `n` consecutive CPU `IN` operations from port 0. -/
def port0_reads (m : Machine) (j : Nat) : Nat → Machine
  | 0 => m
  | n + 1 => MachineIN (port0_reads m j n) 0 j

/-- A port-0 read never changes the I/O state (in particular it never
clears the strobe bit of `key_buffer`). -/
lemma machineIN0_io (m : Machine) (j : Nat) :
    (MachineIN m 0 j).io = m.io ∧ (MachineIN m 0 j).tape = m.tape ∧
    (MachineIN m 0 j).a = m.io.key_buffer % 256 := by
  unfold MachineIN
  rw [if_pos (rfl : (0 : Nat) = 0)]
  exact ⟨rfl, rfl, rfl⟩

/-- Any number of port-0 reads leaves the I/O state unchanged. -/
lemma port0_reads_io (m : Machine) (j n : Nat) : (port0_reads m j n).io = m.io := by
  induction n with
  | zero => rfl
  | succ k ih => rw [port0_reads, (machineIN0_io _ j).1, ih]

/-! ## Claim C6 -/

/-- C6: pressing an unmodified letter key stores its Triton code with bit 7
set and releasing stores the code with bit 7 clear; a port-0 `IN` copies
`key_buffer` into A without altering the I/O state, and no number of
port-0 reads clears the strobe.  Concretely, pressing `A` makes a port-0
read return 0xE1 and releasing it makes the read return 0x61. -/
theorem C6_key_strobe :
    (∀ (io : IOState) (key : Nat), key ≤ kZ →
      (key_press io true key false false).key_buffer = key + 0x61 + 0x80 ∧
      (key_press io false key false false).key_buffer = key + 0x61) ∧
    (∀ (m : Machine) (j : Nat),
      (MachineIN m 0 j).io = m.io ∧ (MachineIN m 0 j).tape = m.tape ∧
      (MachineIN m 0 j).a = m.io.key_buffer % 256) ∧
    (∀ (m : Machine) (j n : Nat), (port0_reads m j n).io = m.io) ∧
    ((MachineIN { m0 with io := key_press m0.io true kA false false } 0 0).a = 0xE1 ∧
     (MachineIN { m0 with io := key_press m0.io false kA false false } 0 0).a = 0x61) := by
  refine ⟨?_, machineIN0_io, port0_reads_io, by decide, by decide⟩
  intro io key h
  unfold kZ at h
  have hcode := key_code_letter key h
  constructor
  · unfold key_press
    rw [hcode, if_pos (show key + 0x61 ≠ 0xFF by omega), if_pos (rfl : true = true)]
    dsimp only
    rw [lor_bit7 _ (by omega)]
  · unfold key_press
    rw [hcode, if_pos (show key + 0x61 ≠ 0xFF by omega),
      if_neg (by decide : ¬false = true)]

/-- Witness for C6 at the letter `Z` and a concrete machine. -/
theorem C6_key_strobe_witness :
    (kZ ≤ kZ ∧
      (key_press io0 true kZ false false).key_buffer = kZ + 0x61 + 0x80 ∧
      (key_press io0 false kZ false false).key_buffer = kZ + 0x61) ∧
    (MachineIN m0 0 0).io = m0.io ∧
    (port0_reads m0 0 3).io = m0.io :=
  ⟨⟨Nat.le_refl kZ, C6_key_strobe.1 io0 kZ (Nat.le_refl kZ)⟩,
   (C6_key_strobe.2.1 m0 0).1,
   C6_key_strobe.2.2.1 m0 0 3⟩

/-! ## Claim C10 -/

/-- C10: a recognised key-release event replaces the entire `key_buffer`
with the released key's mapped code, whose bit 7 is clear — regardless of
what was stored before. -/
theorem C10_release_replaces_buffer (io : IOState) (key : Nat)
    (shifted ctrl : Bool) (hdom : key < kKeyCount)
    (h : key_code key shifted ctrl ≠ 0xFF) :
    (key_press io false key shifted ctrl).key_buffer = key_code key shifted ctrl ∧
    key_code key shifted ctrl < 0x80 := by
  constructor
  · unfold key_press
    rw [if_pos h, if_neg (by decide : ¬false = true)]
  · exact key_code_lt key shifted ctrl hdom h

/-- A buffer still holding the strobed code of a pressed `A` (0xE1). -/
def ioHeldA : IOState := { io0 with key_buffer := 0xE1 }

/-- Witness for C10: releasing `Z` while `A`'s strobed code is stored
leaves exactly `Z`'s code (0x7A), strobe clear. -/
theorem C10_release_replaces_buffer_witness :
    (kZ < kKeyCount ∧ key_code kZ false false ≠ 0xFF) ∧
    ((key_press ioHeldA false kZ false false).key_buffer = key_code kZ false false ∧
     key_code kZ false false < 0x80) :=
  ⟨⟨by decide, by decide⟩,
   C10_release_replaces_buffer ioHeldA kZ false false (by decide) (by decide)⟩

/-! ## Claim C7 -/

/-- C7: a front-panel interrupt injection (F2 or F3) is a no-op when INTE
is clear; when INTE is set it clears INTE, pushes PC little-endian (low
byte at SP−2, high byte at SP−1), decrements SP by 2, and jumps to the
vector (0x0008 for F2, 0x0010 for F3). -/
theorem C7_interrupt_injection :
    ∀ (cpu : State8080) (mem : Int → Int),
      (cpu.int_enable = false →
        f2_press cpu mem = (cpu, mem) ∧ f3_press cpu mem = (cpu, mem)) ∧
      (cpu.int_enable = true → 2 ≤ cpu.sp → cpu.sp < 65536 →
        ((f2_press cpu mem).1.int_enable = false ∧
         (f2_press cpu mem).1.pc = 0x0008 ∧
         (f2_press cpu mem).1.sp = cpu.sp - 2 ∧
         (f2_press cpu mem).2 ((cpu.sp : Int) - 2) = ((cpu.pc % 256 : Nat) : Int) ∧
         (f2_press cpu mem).2 ((cpu.sp : Int) - 1) = ((cpu.pc / 256 : Nat) : Int)) ∧
        ((f3_press cpu mem).1.int_enable = false ∧
         (f3_press cpu mem).1.pc = 0x0010 ∧
         (f3_press cpu mem).1.sp = cpu.sp - 2 ∧
         (f3_press cpu mem).2 ((cpu.sp : Int) - 2) = ((cpu.pc % 256 : Nat) : Int) ∧
         (f3_press cpu mem).2 ((cpu.sp : Int) - 1) = ((cpu.pc / 256 : Nat) : Int))) := by
  intro cpu mem
  constructor
  · intro hoff
    unfold f2_press f3_press interrupt_inject
    rw [hoff]
    exact ⟨rfl, rfl⟩
  · intro hon hsp2 hsp
    have hlow : cpu.pc &&& 0xff = cpu.pc % 256 := Nat.and_pow_two_sub_one_eq_mod cpu.pc 8
    have hhigh : cpu.pc >>> 8 = cpu.pc / 256 := Nat.shiftRight_eq_div_pow cpu.pc 8
    have hmem : ∀ v : Nat,
        (interrupt_inject cpu mem v).1.int_enable = false ∧
        (interrupt_inject cpu mem v).1.pc = v ∧
        (interrupt_inject cpu mem v).1.sp = cpu.sp - 2 ∧
        (interrupt_inject cpu mem v).2 ((cpu.sp : Int) - 2) = ((cpu.pc % 256 : Nat) : Int) ∧
        (interrupt_inject cpu mem v).2 ((cpu.sp : Int) - 1) = ((cpu.pc / 256 : Nat) : Int) := by
      intro v
      unfold interrupt_inject writeMem
      rw [if_pos hon]
      dsimp only
      refine ⟨rfl, rfl, by omega, ?_, ?_⟩
      · rw [if_neg (by omega : ¬((cpu.sp : Int) - 2 = ((cpu.sp + 65536 - 1) % 65536 : Nat))),
          if_pos (by omega : (cpu.sp : Int) - 2 = ((cpu.sp + 65536 - 2) % 65536 : Nat)),
          hlow]
      · rw [if_pos (by omega : (cpu.sp : Int) - 1 = ((cpu.sp + 65536 - 1) % 65536 : Nat)),
          hhigh]
    exact ⟨hmem 0x0008, hmem 0x0010⟩

/-- A concrete CPU state with INTE set, used to instantiate C7. -/
def cpuW : State8080 := { a := 0, pc := 0x1234, sp := 0x2000, int_enable := true }

/-- Witness for C7: F2 at `cpuW` over zeroed memory. -/
theorem C7_interrupt_injection_witness :
    (cpuW.int_enable = true ∧ 2 ≤ cpuW.sp ∧ cpuW.sp < 65536) ∧
    ((f2_press cpuW m0.mem).1.int_enable = false ∧
     (f2_press cpuW m0.mem).1.pc = 0x0008 ∧
     (f2_press cpuW m0.mem).1.sp = cpuW.sp - 2 ∧
     (f2_press cpuW m0.mem).2 ((cpuW.sp : Int) - 2) = ((cpuW.pc % 256 : Nat) : Int) ∧
     (f2_press cpuW m0.mem).2 ((cpuW.sp : Int) - 1) = ((cpuW.pc / 256 : Nat) : Int)) :=
  ⟨⟨rfl, by decide, by decide⟩,
   ((C7_interrupt_injection cpuW m0.mem).2 rfl (by decide) (by decide)).1⟩

/-! ## Tape invariant (claim C8) -/

/-- The VDU switch never touches the tape fields of the I/O state. -/
lemma vdu_action_tape (input : Nat) (io : IOState) (mem : Int → Int) :
    (vdu_action input io mem).1.tape_relay = io.tape_relay ∧
    (vdu_action input io mem).1.tape_status = io.tape_status := by
  unfold vdu_action
  by_cases c00 : input = 0x00
  · rw [if_pos c00]; exact ⟨rfl, rfl⟩
  rw [if_neg c00]
  by_cases c04 : input = 0x04
  · rw [if_pos c04]; exact ⟨rfl, rfl⟩
  rw [if_neg c04]
  by_cases c08 : input = 0x08
  · rw [if_pos c08]; exact ⟨rfl, rfl⟩
  rw [if_neg c08]
  by_cases c09 : input = 0x09
  · rw [if_pos c09]; exact ⟨rfl, rfl⟩
  rw [if_neg c09]
  by_cases c0a : input = 0x0a
  · rw [if_pos c0a]; dsimp only; split_ifs <;> exact ⟨rfl, rfl⟩
  rw [if_neg c0a]
  by_cases c0b : input = 0x0b
  · rw [if_pos c0b]; exact ⟨rfl, rfl⟩
  rw [if_neg c0b]
  by_cases c0c : input = 0x0c
  · rw [if_pos c0c]; exact ⟨rfl, rfl⟩
  rw [if_neg c0c]
  by_cases c0d : input = 0x0d
  · rw [if_pos c0d]; dsimp only; split_ifs <;> exact ⟨rfl, rfl⟩
  rw [if_neg c0d]
  by_cases c18 : input = 0x18
  · rw [if_pos c18]; exact ⟨rfl, rfl⟩
  rw [if_neg c18]
  by_cases c19 : input = 0x19
  · rw [if_pos c19]; exact ⟨rfl, rfl⟩
  rw [if_neg c19]
  by_cases c1a : input = 0x1a
  · rw [if_pos c1a]; exact ⟨rfl, rfl⟩
  rw [if_neg c1a]
  by_cases c1b : input = 0x1b
  · rw [if_pos c1b]; exact ⟨rfl, rfl⟩
  rw [if_neg c1b]
  by_cases c1c : input = 0x1c
  · rw [if_pos c1c]; exact ⟨rfl, rfl⟩
  rw [if_neg c1c]
  by_cases c1d : input = 0x1d
  · rw [if_pos c1d]; exact ⟨rfl, rfl⟩
  rw [if_neg c1d]
  dsimp only
  split_ifs <;> exact ⟨rfl, rfl⟩

/-- `vdu_strobe` never touches the tape fields of the I/O state. -/
lemma vdu_strobe_tape (io : IOState) (mem : Int → Int) :
    (vdu_strobe io mem).1.tape_relay = io.tape_relay ∧
    (vdu_strobe io mem).1.tape_status = io.tape_status :=
  vdu_action_tape (io.vdu_buffer &&& 0x7f) io mem

/-- The inductive tape invariant: the spec's invariant 3 (relay off implies
idle status and closed handle) strengthened with the two facts that make it
inductive: an open handle means the status is reading or writing, and the
status only ever holds one of its three character codes. -/
def TapeConsistent (m : Machine) : Prop :=
  (m.io.tape_relay = false → m.io.tape_status = 32 ∧ m.tape.handleOpen = false) ∧
  (m.tape.handleOpen = true → m.io.tape_status = 114 ∨ m.io.tape_status = 119) ∧
  (m.io.tape_status = 32 ∨ m.io.tape_status = 114 ∨ m.io.tape_status = 119)

instance (m : Machine) : Decidable (TapeConsistent m) := by
  unfold TapeConsistent; infer_instance

/-- A machine whose tape-relevant components agree with another machine's
inherits its tape invariant. -/
lemma tapeConsistent_of_eq (m m' : Machine)
    (hr : m'.io.tape_relay = m.io.tape_relay)
    (hs : m'.io.tape_status = m.io.tape_status)
    (ho : m'.tape.handleOpen = m.tape.handleOpen)
    (h : TapeConsistent m) : TapeConsistent m' := by
  unfold TapeConsistent at h ⊢
  rw [hr, hs, ho]
  exact h

/-- `MachineIN` preserves the tape invariant for every port. -/
lemma machineIN_tape (m : Machine) (port junk : Nat) (h : TapeConsistent m) :
    TapeConsistent (MachineIN m port junk) := by
  unfold MachineIN
  by_cases h0 : port = 0
  · rw [if_pos h0]; exact h
  rw [if_neg h0]
  by_cases h1 : port = 1
  · rw [if_pos h1]; exact h
  rw [if_neg h1]
  by_cases h4 : port = 4
  · rw [if_pos h4]
    by_cases hr : m.io.tape_relay = true
    · rw [if_pos hr]
      by_cases hs : m.io.tape_status = 32
      · rw [if_pos hs, if_pos hs]
        dsimp only
        rw [if_pos ⟨rfl, rfl⟩]
        split_ifs with hpos <;>
          exact ⟨fun hf => absurd (hr.symm.trans hf) (by decide),
                 fun _ => Or.inl rfl, Or.inr (Or.inl rfl)⟩
      · rw [if_neg hs, if_neg hs]
        dsimp only
        split_ifs <;> exact tapeConsistent_of_eq m _ rfl rfl rfl h
    · rw [if_neg hr]; exact h
  · rw [if_neg h4]; exact h

/-- `MachineOUT` preserves the tape invariant for every port. -/
lemma machineOUT_tape (m : Machine) (port : Nat) (h : TapeConsistent m) :
    TapeConsistent (MachineOUT m port) := by
  unfold MachineOUT
  by_cases h2 : port = 2
  · rw [if_pos h2]
    by_cases hr : m.io.tape_relay = true
    · rw [if_pos hr]
      by_cases hs : m.io.tape_status = 32
      · rw [if_pos hs, if_pos hs]
        dsimp only
        rw [if_pos rfl]
        exact ⟨fun hf => absurd (hr.symm.trans hf) (by decide),
               fun _ => Or.inr rfl, Or.inr (Or.inr rfl)⟩
      · rw [if_neg hs, if_neg hs]
        dsimp only
        split_ifs <;> exact tapeConsistent_of_eq m _ rfl rfl rfl h
    · rw [if_neg hr]; exact h
  rw [if_neg h2]
  by_cases h3 : port = 3
  · rw [if_pos h3]; exact tapeConsistent_of_eq m _ rfl rfl rfl h
  rw [if_neg h3]
  by_cases h5 : port = 5
  · rw [if_pos h5]
    split_ifs with hb hv
    · exact tapeConsistent_of_eq m _
        (vdu_strobe_tape _ m.mem).1 (vdu_strobe_tape _ m.mem).2 rfl h
    · exact tapeConsistent_of_eq m _ rfl rfl rfl h
    · exact h
  rw [if_neg h5]
  by_cases h6 : port = 6
  · rw [if_pos h6]; exact tapeConsistent_of_eq m _ rfl rfl rfl h
  rw [if_neg h6]
  by_cases h7 : port = 7
  · rw [if_pos h7]
    dsimp only
    obtain ⟨hA, hB, hC⟩ := h
    by_cases hb : m.a &&& 0x80 = 0
    · rw [hb,
        if_neg (show ¬((0 : Nat) ≠ 0 ∧ m.io.tape_relay = false) from fun hc => hc.1 rfl)]
      by_cases hr : m.io.tape_relay = true
      · rw [if_pos (show (0 : Nat) = 0 ∧ m.io.tape_relay = true from ⟨rfl, hr⟩)]
        by_cases hsw : m.io.tape_status = 119 ∨ m.io.tape_status = 114
        · rw [if_pos hsw, if_pos hsw]
          exact ⟨fun _ => ⟨rfl, rfl⟩, fun hf => Bool.noConfusion hf, Or.inl rfl⟩
        · rw [if_neg hsw, if_neg hsw]
          have hst : m.io.tape_status = 32 := by
            rcases hC with hc | hc | hc
            · exact hc
            · exact absurd (Or.inr hc) hsw
            · exact absurd (Or.inl hc) hsw
          have hopen : m.tape.handleOpen = false := by
            rcases hq : m.tape.handleOpen
            · rfl
            · rcases hB hq with hx | hx
              · exact absurd (Or.inr hx) hsw
              · exact absurd (Or.inl hx) hsw
          exact ⟨fun _ => ⟨hst, hopen⟩, hB, hC⟩
      · rw [if_neg (show ¬((0 : Nat) = 0 ∧ m.io.tape_relay = true) from fun hc => hr hc.2)]
        exact ⟨hA, hB, hC⟩
    · by_cases hr : m.io.tape_relay = true
      · rw [if_neg (show ¬(m.a &&& 0x80 ≠ 0 ∧ m.io.tape_relay = false) from
            fun hc => Bool.noConfusion (hr.symm.trans hc.2)),
          if_neg (show ¬(m.a &&& 0x80 = 0 ∧ m.io.tape_relay = true) from fun hc => hb hc.1)]
        exact ⟨hA, hB, hC⟩
      · have hrf : m.io.tape_relay = false := by
          rcases hq : m.io.tape_relay
          · rfl
          · exact absurd hq hr
        rw [if_pos (show m.a &&& 0x80 ≠ 0 ∧ m.io.tape_relay = false from ⟨hb, hrf⟩)]
        dsimp only
        rw [if_neg (show ¬(m.a &&& 0x80 = 0 ∧ true = true) from fun hc => hb hc.1)]
        exact ⟨fun hf => Bool.noConfusion hf, hB, hC⟩
  rw [if_neg h7]
  exact h

/-- One I/O instruction preserves the tape invariant. -/
lemma doOp_tape (m : Machine) (op : IOOp) (h : TapeConsistent m) :
    TapeConsistent (doOp m op) := by
  cases op with
  | inp port junk => exact machineIN_tape m port junk h
  | outp port a =>
    exact machineOUT_tape { m with a := a } port
      (tapeConsistent_of_eq m _ rfl rfl rfl h)

/-- Any sequence of I/O instructions preserves the tape invariant. -/
lemma runOps_tape (m : Machine) (ops : List IOOp) (h : TapeConsistent m) :
    TapeConsistent (runOps m ops) := by
  induction ops generalizing m with
  | nil => exact h
  | cons op t ih => exact ih _ (doOp_tape m op h)

/-- A port-7 write with bit 7 clear while the relay is on closes any open
handle, sets the status to idle and drops the relay. -/
lemma out7_falling (m : Machine) (h : TapeConsistent m)
    (hr : m.io.tape_relay = true) (hb : m.a &&& 0x80 = 0) :
    (MachineOUT m 7).tape.handleOpen = false ∧
    (MachineOUT m 7).io.tape_status = 32 ∧
    (MachineOUT m 7).io.tape_relay = false := by
  obtain ⟨hA, hB, hC⟩ := h
  unfold MachineOUT
  rw [if_neg (by decide : ¬(7 : Nat) = 2), if_neg (by decide : ¬(7 : Nat) = 3),
    if_neg (by decide : ¬(7 : Nat) = 5), if_neg (by decide : ¬(7 : Nat) = 6),
    if_pos (rfl : (7 : Nat) = 7)]
  dsimp only
  rw [hb,
    if_neg (show ¬((0 : Nat) ≠ 0 ∧ m.io.tape_relay = false) from fun hc => hc.1 rfl),
    if_pos (show (0 : Nat) = 0 ∧ m.io.tape_relay = true from ⟨rfl, hr⟩)]
  by_cases hsw : m.io.tape_status = 119 ∨ m.io.tape_status = 114
  · rw [if_pos hsw, if_pos hsw]
    exact ⟨rfl, rfl, rfl⟩
  · rw [if_neg hsw, if_neg hsw]
    have hst : m.io.tape_status = 32 := by
      rcases hC with hc | hc | hc
      · exact hc
      · exact absurd (Or.inr hc) hsw
      · exact absurd (Or.inl hc) hsw
    have hopen : m.tape.handleOpen = false := by
      rcases hq : m.tape.handleOpen
      · rfl
      · rcases hB hq with hx | hx
        · exact absurd (Or.inr hx) hsw
        · exact absurd (Or.inl hx) hsw
    exact ⟨hopen, hst, rfl⟩

/-- While the relay is off and the handle closed, no single I/O instruction
opens the tape handle. -/
lemma doOp_no_open (m : Machine) (op : IOOp)
    (hr : m.io.tape_relay = false) (ho : m.tape.handleOpen = false) :
    (doOp m op).tape.handleOpen = false := by
  have hnr : ¬ m.io.tape_relay = true := fun hc => Bool.noConfusion (hr.symm.trans hc)
  cases op with
  | inp port junk =>
    show (MachineIN m port junk).tape.handleOpen = false
    unfold MachineIN
    by_cases h0 : port = 0
    · rw [if_pos h0]; exact ho
    rw [if_neg h0]
    by_cases h1 : port = 1
    · rw [if_pos h1]; exact ho
    rw [if_neg h1]
    by_cases h4 : port = 4
    · rw [if_pos h4, if_neg hnr]
      exact ho
    · rw [if_neg h4]; exact ho
  | outp port a =>
    show (MachineOUT { m with a := a } port).tape.handleOpen = false
    unfold MachineOUT
    by_cases h2 : port = 2
    · rw [if_pos h2, if_neg hnr]
      exact ho
    rw [if_neg h2]
    by_cases h3 : port = 3
    · rw [if_pos h3]; exact ho
    rw [if_neg h3]
    by_cases h5 : port = 5
    · rw [if_pos h5]
      split_ifs <;> exact ho
    rw [if_neg h5]
    by_cases h6 : port = 6
    · rw [if_pos h6]; exact ho
    rw [if_neg h6]
    by_cases h7 : port = 7
    · rw [if_pos h7]
      dsimp only
      by_cases hb : a &&& 0x80 = 0
      · rw [hb,
          if_neg (show ¬((0 : Nat) ≠ 0 ∧ m.io.tape_relay = false) from fun hc => hc.1 rfl),
          if_neg (show ¬((0 : Nat) = 0 ∧ m.io.tape_relay = true) from fun hc => hnr hc.2)]
        exact ho
      · rw [if_pos (show a &&& 0x80 ≠ 0 ∧ m.io.tape_relay = false from ⟨hb, hr⟩)]
        dsimp only
        rw [if_neg (show ¬(a &&& 0x80 = 0 ∧ true = true) from fun hc => hb hc.1)]
        exact ho
    · rw [if_neg h7]; exact ho

/-! ## Claim C8 -/

/-- C8: in every state reachable by I/O instructions from a state
satisfying the tape invariant, a dropped relay implies idle status and a
closed handle; a port-7 write with bit 7 clear while the relay is on closes
the handle, idles the status and drops the relay; and no instruction opens
the handle while the relay is off. -/
theorem C8_tape_relay_invariant :
    (∀ (m : Machine) (ops : List IOOp), TapeConsistent m →
      (runOps m ops).io.tape_relay = false →
      (runOps m ops).io.tape_status = 32 ∧ (runOps m ops).tape.handleOpen = false) ∧
    (∀ m : Machine, TapeConsistent m → m.io.tape_relay = true → m.a &&& 0x80 = 0 →
      (MachineOUT m 7).tape.handleOpen = false ∧
      (MachineOUT m 7).io.tape_status = 32 ∧
      (MachineOUT m 7).io.tape_relay = false) ∧
    (∀ (m : Machine) (op : IOOp), m.io.tape_relay = false → m.tape.handleOpen = false →
      (doOp m op).tape.handleOpen = false) := by
  refine ⟨?_, out7_falling, doOp_no_open⟩
  intro m ops h hrel
  exact (runOps_tape m ops h).1 hrel

/-- A machine with the relay on, the handle open and a write in progress,
used to instantiate C8. -/
def m8 : Machine :=
  { a := 0,
    io := { io0 with tape_relay := true, tape_status := 119 },
    tape := { tape0 with handleOpen := true },
    mem := fun _ => 0 }

/-- Witness for C8: the relay-off invariant after a concrete run, the
falling-edge behaviour at `m8`, and the no-open property at `m0`. -/
theorem C8_tape_relay_invariant_witness :
    (TapeConsistent m0 ∧ (runOps m0 [.outp 3 0x55, .inp 0 0]).io.tape_relay = false ∧
      (runOps m0 [.outp 3 0x55, .inp 0 0]).io.tape_status = 32 ∧
      (runOps m0 [.outp 3 0x55, .inp 0 0]).tape.handleOpen = false) ∧
    (TapeConsistent m8 ∧ m8.io.tape_relay = true ∧ m8.a &&& 0x80 = 0 ∧
      (MachineOUT m8 7).tape.handleOpen = false ∧
      (MachineOUT m8 7).io.tape_status = 32 ∧
      (MachineOUT m8 7).io.tape_relay = false) ∧
    (doOp m0 (.inp 4 0x42)).tape.handleOpen = false :=
  ⟨⟨by decide, by decide,
    C8_tape_relay_invariant.1 m0 [.outp 3 0x55, .inp 0 0] (by decide) (by decide)⟩,
   ⟨by decide, rfl, by decide,
    C8_tape_relay_invariant.2.1 m8 (by decide) rfl (by decide)⟩,
   C8_tape_relay_invariant.2.2 m0 (.inp 4 0x42) rfl rfl⟩

/-! ## Claim C9 -/

/-- The S6 scenario: engage the relay, write 0x11, 0x22, 0x33 to port 2,
drop the relay (closing the write handle), and re-engage it. -/
def m9run : Machine :=
  runOps m0 [IOOp.outp 7 0x80, IOOp.outp 2 0x11, IOOp.outp 2 0x22,
    IOOp.outp 2 0x33, IOOp.outp 7 0x00, IOOp.outp 7 0x80]

/-- First port-4 read of the S6 scenario (junk byte 0x42 in the
uninitialised local `char c`). -/
def m9r1 : Machine := MachineIN m9run 4 0x42

/-- Second port-4 read. -/
def m9r2 : Machine := MachineIN m9r1 4 0x42

/-- Third port-4 read: the last byte of the file. -/
def m9r3 : Machine := MachineIN m9r2 4 0x42

/-- C9: the first port-4 read opens the file read-only (status `'r'`) and
the three reads return 0x11, 0x22, 0x33 in order, as claimed — but the
fourth read does not return 0x00: the code tests `eof()` before `get()`,
so the first past-end read performs a failing `get` and copies the
uninitialised local `c` into A (whatever junk it holds, here 0x42 against
0x00); only from the fifth read on, with the eof bit now set, does A
receive 0x00. -/
theorem C9_tape_eof_junk :
    m9r1.io.tape_status = 114 ∧ m9r1.tape.handleOpen = true ∧
    m9r1.a = 0x11 ∧ m9r2.a = 0x22 ∧ m9r3.a = 0x33 ∧
    (MachineIN m9r3 4 0x42).a = 0x42 ∧
    (MachineIN m9r3 4 0x00).a = 0x00 ∧
    (MachineIN (MachineIN m9r3 4 0x42) 4 0x42).a = 0 := by
  decide

end Triton
